import Mathlib

/-!
Verification development for the AIBot chat backend.

This file gives a shallow embedding of the WebSocket connection manager
(`src/backend/websocket/connection_manager.py`), the channel message pipeline
(`src/backend/ai_service/chat_service.py`,
`src/backend/channels/router.py`, `src/backend/ai_service/router.py`) and the
AI provider retry policy (`src/backend/ai_service/ai_providers.py`), and proves
or refutes the frozen specification claims about them.

Python dictionaries are modelled as insertion-ordered association lists with
unique keys; WebSocket connection objects are opaque handles modelled as `Nat`;
`send_text` calls are modelled by a `sendOk : Conn → Bool` oracle telling which
connections raise on send (the `try/except` blocks of the source are embedded
as branches on that oracle).  Timestamps (`created_at`, event `timestamp`) are
not modelled: no claim depends on them.
-/

namespace AIBot

/-! ## Association-list primitives (Python `dict` semantics) -/

/-- First-match lookup in an association list (Python `d[k]` / `d.get(k)`). -/
def alookup {α β : Type} [DecidableEq α] (k : α) : List (α × β) → Option β
  | [] => none
  | (a, b) :: xs => if a = k then some b else alookup k xs

/-- Remove the first entry with the given key (Python `del d[k]`). -/
def aerase {α β : Type} [DecidableEq α] (k : α) : List (α × β) → List (α × β)
  | [] => []
  | (a, b) :: xs => if a = k then xs else (a, b) :: aerase k xs

/-- Update the first entry with the given key in place, or append a new entry
(Python `d[k] = v`, which preserves insertion order on update). -/
def aset {α β : Type} [DecidableEq α] (k : α) (v : β) : List (α × β) → List (α × β)
  | [] => [(k, v)]
  | (a, b) :: xs => if a = k then (k, v) :: xs else (a, b) :: aset k v xs

/-- The keys of an association list are pairwise distinct, as they are in a
Python `dict`. -/
def KeysNodup {α β : Type} (l : List (α × β)) : Prop := (l.map Prod.fst).Nodup

instance {α β : Type} [DecidableEq α] (l : List (α × β)) : Decidable (KeysNodup l) := by
  unfold KeysNodup; infer_instance

/-! ## Data model -/

/-- A WebSocket connection handle (opaque object identity in the source). -/
abbrev Conn := Nat

/-- The per-connection metadata stored in `ConnectionManager.connection_users`
(the `connected_at` timestamp is not modelled). -/
structure UserInfo where
  user_id : Int
  user_name : String
  channel_id : Int
deriving DecidableEq, Repr

/-- A `ChannelMessage` row / broadcast message dictionary.  `id` is assigned by
the database; `response` and `provider` are nullable columns.  The same shape
is used for the rows of the legacy `ChatMessage` table (where `channel_id` is
unused). -/
structure Row where
  id : Nat := 0
  channel_id : Int := 0
  user_id : Int := 0
  message : String := ""
  response : Option String := none
  provider : Option String := none
  message_type : String := ""
  file_url : Option String := none
  file_name : Option String := none
  file_type : Option String := none
  is_archived : Bool := false
deriving DecidableEq, Repr

/-- Outbound WebSocket events (`type` field of the JSON envelopes built by
`ConnectionManager`; the `timestamp` field is not modelled). -/
inductive EventType where
  | user_joined (user_id : Int) (user_name : String)
  | user_left (user_id : Int) (user_name : String)
  | new_message (m : Row)
  | online_users (users : List (Int × String))
deriving DecidableEq, Repr

/-- The two process-wide dictionaries of `ConnectionManager`. -/
structure ManagerState where
  active_connections : List (Int × List Conn)
  connection_users : List (Conn × UserInfo)
deriving DecidableEq, Repr

/-- The state of a freshly constructed `ConnectionManager`. -/
def emptyState : ManagerState := { active_connections := [], connection_users := [] }

/-- Python `str.strip()`: drop leading and trailing whitespace. -/
def pyStrip (s : String) : String :=
  ⟨((s.data.dropWhile Char.isWhitespace).reverse.dropWhile Char.isWhitespace).reverse⟩

/-- `self.active_connections.get(channel_id, [])`. -/
def rosterOf (st : ManagerState) (ch : Int) : List Conn :=
  (alookup ch st.active_connections).getD []

/-- The channel recorded for a connection in `connection_users`, if any. -/
def connChannel (st : ManagerState) (c : Conn) : Option Int :=
  (alookup c st.connection_users).map (·.channel_id)

/-- `get_online_users`: the `(user_id, user_name)` entries for the channel
roster, skipping connections with no recorded metadata. -/
def getOnlineUsers (st : ManagerState) (ch : Int) : List (Int × String) :=
  (rosterOf st ch).filterMap fun c =>
    (alookup c st.connection_users).map fun i => (i.user_id, i.user_name)

/-- `get_channel_connection_count`. -/
def channelConnectionCount (st : ManagerState) (ch : Int) : Nat :=
  (rosterOf st ch).length

/-- The bookkeeping part of `ConnectionManager.disconnect` (lines 51-69 of
`connection_manager.py`): if the connection has recorded metadata, remove it
from its channel roster, drop the channel entry when the roster becomes empty,
and delete the metadata entry.  Returns the updated state together with the
metadata of the removed connection, or `none` when the call is a no-op. -/
def disconnectStep (st : ManagerState) (c : Conn) : Option (ManagerState × UserInfo) :=
  match alookup c st.connection_users with
  | none => none
  | some info =>
    let act :=
      match alookup info.channel_id st.active_connections with
      | none => st.active_connections
      | some roster =>
        let roster1 := roster.erase c
        if roster1.isEmpty then aerase info.channel_id st.active_connections
        else aset info.channel_id roster1 st.active_connections
    some ({ active_connections := act, connection_users := aerase c st.connection_users }, info)

/-- Walk the disconnect worklist until the first connection that is actually
registered (`disconnectStep` succeeds); entries with no metadata are no-ops,
exactly like the `if websocket in self.connection_users` guard of
`disconnect`.  Returns the state after that one removal, the removed
connection's metadata, and the rest of the worklist. -/
def pruneStepFirst (st : ManagerState) :
    List Conn → Option (ManagerState × UserInfo × List Conn)
  | [] => none
  | d :: ds =>
    match disconnectStep st d with
    | none => pruneStepFirst st ds
    | some (st1, info) => some (st1, info, ds)

/-- Process a worklist of connections to disconnect.  Each registered
connection is removed (via `disconnectStep`) and a `user_left` event is then
broadcast to the remaining roster of its channel; peers whose send fails
(`sendOk c = false`) are prepended to the worklist, exactly as the nested
`broadcast_to_channel` / `disconnect` calls of the source prune them
depth-first.  `fuel` bounds the number of successful removals; since every
removal deletes one `connection_users` entry, `st.connection_users.length`
is always enough fuel (see `pruneAll`). -/
def pruneAllFuel (sendOk : Conn → Bool) :
    Nat → ManagerState → List Conn → ManagerState × List (Conn × EventType)
  | 0, st, _ => (st, [])
  | n + 1, st, wl =>
    match pruneStepFirst st wl with
    | none => (st, [])
    | some (st1, info, rest) =>
      let r := rosterOf st1 info.channel_id
      let delivered := (r.filter sendOk).map fun c =>
        (c, EventType.user_left info.user_id info.user_name)
      let out := pruneAllFuel sendOk n st1 (r.filter (fun c => !sendOk c) ++ rest)
      (out.1, delivered ++ out.2)

/-- Disconnect every connection in the worklist (the mutual recursion of
`disconnect` and `broadcast_to_channel`), with fuel
`st.connection_users.length`, which is exact: each successful removal deletes
one metadata entry, and once the metadata map is empty every further
`disconnectStep` is a no-op.  `ConnectionManager.disconnect c` is
`pruneAll sendOk st [c]`. -/
def pruneAll (sendOk : Conn → Bool) (st : ManagerState) (wl : List Conn) :
    ManagerState × List (Conn × EventType) :=
  pruneAllFuel sendOk st.connection_users.length st wl

/-- `ConnectionManager.disconnect`. -/
def disconnectConn (sendOk : Conn → Bool) (st : ManagerState) (c : Conn) :
    ManagerState × List (Conn × EventType) :=
  pruneAll sendOk st [c]

/-- `ConnectionManager.broadcast_to_channel` (lines 87-105): snapshot the
roster, attempt a send to every connection other than `exclude`, then
disconnect every connection whose send failed. -/
def broadcastToChannel (sendOk : Conn → Bool) (st : ManagerState) (ch : Int)
    (ev : EventType) (excl : Option Conn) : ManagerState × List (Conn × EventType) :=
  match alookup ch st.active_connections with
  | none => (st, [])
  | some roster =>
    let targets := match excl with
      | none => roster
      | some e => roster.filter fun c => c != e
    let delivered := (targets.filter sendOk).map fun c => (c, ev)
    let dead := targets.filter fun c => !sendOk c
    let rest := pruneAll sendOk st dead
    (rest.1, delivered ++ rest.2)

/-- `ConnectionManager.broadcast_new_message_exclude_user` (lines 115-153):
skip every connection whose recorded metadata carries `exclude_user_id`;
a connection with no metadata entry is not skipped. -/
def broadcastNewMessageExcludeUser (sendOk : Conn → Bool) (st : ManagerState)
    (ch : Int) (m : Row) (uid : Int) : ManagerState × List (Conn × EventType) :=
  match alookup ch st.active_connections with
  | none => (st, [])
  | some roster =>
    let targets := roster.filter fun c =>
      match alookup c st.connection_users with
      | some info => info.user_id != uid
      | none => true
    let delivered := (targets.filter sendOk).map fun c => (c, EventType.new_message m)
    let dead := targets.filter fun c => !sendOk c
    let rest := pruneAll sendOk st dead
    (rest.1, delivered ++ rest.2)

/-- `ConnectionManager.broadcast_new_message` (no exclusion). -/
def broadcastNewMessage (sendOk : Conn → Bool) (st : ManagerState) (ch : Int)
    (m : Row) : ManagerState × List (Conn × EventType) :=
  broadcastToChannel sendOk st ch (EventType.new_message m) none

/-- `ConnectionManager.connect` (lines 17-47): append the connection to the
channel roster (creating the entry if needed), record its metadata, broadcast
`user_joined` to the other members, and send the new connection an
`online_users` snapshot via `send_personal_message` (whose failure triggers
`disconnect` of the new connection). -/
def connectConn (sendOk : Conn → Bool) (st : ManagerState) (c : Conn) (ch : Int)
    (uid : Int) (name : String) : ManagerState × List (Conn × EventType) :=
  let st1 : ManagerState :=
    { active_connections := aset ch (rosterOf st ch ++ [c]) st.active_connections,
      connection_users := aset c ⟨uid, name, ch⟩ st.connection_users }
  let bj := broadcastToChannel sendOk st1 ch (EventType.user_joined uid name) (some c)
  let ou := getOnlineUsers bj.1 ch
  if sendOk c then (bj.1, bj.2 ++ [(c, EventType.online_users ou)])
  else
    let pr := pruneAll sendOk bj.1 [c]
    (pr.1, bj.2 ++ pr.2)

/-! ## Operation sequences over the connection registry -/

/-- One call into the shared `ConnectionManager` instance. -/
inductive Op where
  | connect (c : Conn) (ch : Int) (uid : Int) (name : String)
  | disconnect (c : Conn)
  | broadcast (ch : Int) (ev : EventType) (excl : Option Conn)
  | broadcastNewMsg (ch : Int) (m : Row) (uid : Int)
deriving Repr

/-- Apply one manager call. -/
def applyOp (sendOk : Conn → Bool) (st : ManagerState) :
    Op → ManagerState × List (Conn × EventType)
  | .connect c ch uid name => connectConn sendOk st c ch uid name
  | .disconnect c => disconnectConn sendOk st c
  | .broadcast ch ev excl => broadcastToChannel sendOk st ch ev excl
  | .broadcastNewMsg ch m uid => broadcastNewMessageExcludeUser sendOk st ch m uid

/-- The state after a sequence of manager calls. -/
def runState (sendOk : Conn → Bool) : ManagerState → List Op → ManagerState
  | st, [] => st
  | st, op :: rest => runState sendOk (applyOp sendOk st op).1 rest

/-- Side condition for one call: `connect` is only ever invoked with a
connection object that is not currently registered (a fresh WebSocket handle,
which is how the server invokes it — one `connect` per accepted socket). -/
def opOk (st : ManagerState) : Op → Bool
  | .connect c _ _ _ => (alookup c st.connection_users).isNone
  | _ => true

/-- Side condition along a whole call sequence. -/
def opsOk (sendOk : Conn → Bool) : ManagerState → List Op → Bool
  | _, [] => true
  | st, op :: rest => opOk st op && opsOk sendOk (applyOp sendOk st op).1 rest

/-- Registry invariant: both dictionaries have distinct keys, every roster is
nonempty and duplicate-free, every roster member has metadata pointing back at
that channel, and every metadata entry appears in its channel's roster. -/
def Inv (st : ManagerState) : Prop :=
  KeysNodup st.active_connections ∧
  KeysNodup st.connection_users ∧
  (∀ p ∈ st.active_connections,
    p.2 ≠ [] ∧ p.2.Nodup ∧ ∀ c ∈ p.2, connChannel st c = some p.1) ∧
  (∀ q ∈ st.connection_users, q.1 ∈ rosterOf st q.2.channel_id)

instance (st : ManagerState) : Decidable (Inv st) := by
  unfold Inv; infer_instance

/-- A connection that is completely absent from the registry. -/
def NotIn (c : Conn) (st : ManagerState) : Prop :=
  alookup c st.connection_users = none ∧ ∀ ch, c ∉ rosterOf st ch

/-! ## Channel message pipeline (`chat_service.py`, routers) -/

/-- The fallback body substituted by `ChatService._process_message` when the
provider call (or the `AI_PROVIDER` dispatch) raises: the source f-string
interpolates `str(e)` after a fixed apology. -/
def fallbackResponse (e : String) : String :=
  "I apologize, but I\x27m having trouble processing your request right now. Error: " ++ e

/-- `ChatService._process_message` as invoked through the LangGraph workflow.
`outcome` is what the selected provider's `generate_response` does for this
message (`.error e` when it raises an exception rendered as `e`).  All
exceptions — including the `ValueError` raised for an unknown `AI_PROVIDER` —
are caught and turned into the fallback body, so the `@retry` decorator on
`_process_message` never observes a failure. -/
def processMessageResult (aiProvider : String) (outcome : Except String String) : String :=
  if aiProvider = "groq" ∨ aiProvider = "gemini" then
    match outcome with
    | .ok r => r
    | .error e => fallbackResponse e
  else fallbackResponse ("Invalid AI_PROVIDER: " ++ aiProvider)

/-- The tenant database: `channel_messages` and the legacy `chat_messages`
table, with rows in commit order and `id` assigned by an increasing counter. -/
structure Db where
  nextId : Nat := 0
  channel_messages : List Row := []
  chat_messages : List Row := []
deriving DecidableEq, Repr

/-- `db.add` + `db.commit` + `db.refresh` of a `ChannelMessage`. -/
def dbInsert (db : Db) (mk : Nat → Row) : Db × Row :=
  let r := mk db.nextId
  ({ db with nextId := db.nextId + 1, channel_messages := db.channel_messages ++ [r] }, r)

/-- `db.add` + `db.commit` + `db.refresh` of a legacy `ChatMessage`. -/
def dbInsertChat (db : Db) (mk : Nat → Row) : Db × Row :=
  let r := mk db.nextId
  ({ db with nextId := db.nextId + 1, chat_messages := db.chat_messages ++ [r] }, r)

/-- `ChatService.save_chat_message` (lines 69-110): with a (truthy) channel id
it writes ONE `ChannelMessage` row carrying both the user's `message` and the
AI `response`, typed `ai` whenever the response is nonempty; without a channel
id it writes a `ChatMessage` row. -/
def saveChatMessage (db : Db) (user_id : Int) (msg resp : String) (provider : String)
    (channel_id : Option Int) : Db × Row :=
  match channel_id with
  | some ch =>
    dbInsert db fun i =>
      { id := i, channel_id := ch, user_id := user_id, message := msg,
        response := some resp, provider := some provider,
        message_type := if resp = "" then "user" else "ai" }
  | none =>
    dbInsertChat db fun i =>
      { id := i, user_id := user_id, message := msg,
        response := some resp, provider := some provider }

/-- `ChatService.process_chat_message` (lines 112-133): invoke the workflow,
save one row via `save_chat_message`, return `(response, provider)`. -/
def processChatMessage (aiProvider : String) (outcome : Except String String)
    (user_id : Int) (msg : String) (channel_id : Option Int) (db : Db) :
    String × String × Db :=
  let response := processMessageResult aiProvider outcome
  let (db1, _) := saveChatMessage db user_id msg response aiProvider channel_id
  (response, aiProvider, db1)

/-- `POST /channels/{id}/chat` of `ai_service/router.py` (`chat_in_channel`,
lines 31-44): the legacy channel-chat endpoint, which persists through
`save_chat_message`. -/
def chatInChannel (aiProvider : String) (outcome : Except String String)
    (user_id : Int) (ch : Int) (msg : String) (db : Db) : String × String × Db :=
  processChatMessage aiProvider outcome user_id msg (some ch) db

/-- One observable step of a pipeline run, in execution order. -/
inductive PAct where
  | aiInvoke
  | persistRow (r : Row)
  | broadcastRow (r : Row)
deriving DecidableEq, Repr

/-- Everything a pipeline run produces. -/
structure PipelineOut where
  result : List Row
  db : Db
  state : ManagerState
  deliveries : List (Conn × EventType)
  trace : List PAct
deriving Repr

/-- `ChatService.process_channel_message` (lines 135-221): invoke the AI
workflow FIRST, then persist the user row, then the AI row (sentinel user id
`-1`), then broadcast both dictionaries to the channel excluding the sender. -/
def processChannelMessage (aiProvider : String) (outcome : Except String String)
    (sendOk : Conn → Bool) (user_id : Int) (msg : String) (channel_id : Int)
    (db : Db) (st : ManagerState) : PipelineOut :=
  let response := processMessageResult aiProvider outcome
  let ins1 := dbInsert db fun i =>
    { id := i, channel_id := channel_id, user_id := user_id, message := msg,
      message_type := "user" }
  let ins2 := dbInsert ins1.1 fun i =>
    { id := i, channel_id := channel_id, user_id := -1, message := response,
      response := none, provider := some aiProvider, message_type := "ai" }
  let userDict : Row := { ins1.2 with response := none, provider := none }
  let aiDict : Row := { ins2.2 with response := none }
  let b1 := broadcastNewMessageExcludeUser sendOk st channel_id userDict user_id
  let b2 := broadcastNewMessageExcludeUser sendOk b1.1 channel_id aiDict user_id
  { result := [userDict, aiDict], db := ins2.1, state := b2.1,
    deliveries := b1.2 ++ b2.2,
    trace := [.aiInvoke, .persistRow ins1.2, .persistRow ins2.2,
              .broadcastRow userDict, .broadcastRow aiDict] }

/-- `ChatService.process_file_upload` (lines 315-421): persist the user row
(with file metadata) FIRST, then attempt the AI analysis (its failure is
replaced by an apologetic body naming the file), then persist the AI row and
broadcast both dictionaries excluding the sender. -/
def processFileUpload (aiProvider : String) (outcome : Except String String)
    (sendOk : Conn → Bool) (user_id : Int) (channel_id : Int)
    (file_url file_name message_text : String) (db : Db) (st : ManagerState) :
    PipelineOut :=
  let ext :=
    if (file_name.splitOn ".").length ≥ 2 then ((file_name.splitOn ".").getLastD "").toLower
    else ""
  let ins1 := dbInsert db fun i =>
    { id := i, channel_id := channel_id, user_id := user_id, message := message_text,
      message_type := "user", file_url := some file_url, file_name := some file_name,
      file_type := some ext }
  let aiResponse :=
    if aiProvider = "groq" ∨ aiProvider = "gemini" then
      match outcome with
      | .ok r => r
      | .error e =>
        "File uploaded successfully! I can see you\x27ve shared " ++ file_name ++
          ". Unfortunately, I encountered an issue analyzing it: " ++ e
    else "File uploaded successfully, but AI analysis is not available."
  let ins2 := dbInsert ins1.1 fun i =>
    { id := i, channel_id := channel_id, user_id := -1, message := aiResponse,
      response := none, provider := some aiProvider, message_type := "ai" }
  let userDict : Row := { ins1.2 with response := none, provider := none }
  let aiDict : Row := { ins2.2 with response := none }
  let b1 := broadcastNewMessageExcludeUser sendOk st channel_id userDict user_id
  let b2 := broadcastNewMessageExcludeUser sendOk b1.1 channel_id aiDict user_id
  { result := [userDict, aiDict], db := ins2.1, state := b2.1,
    deliveries := b1.2 ++ b2.2,
    trace := [.persistRow ins1.2, .aiInvoke, .persistRow ins2.2,
              .broadcastRow userDict, .broadcastRow aiDict] }

/-- HTTP error responses surfaced by the channels router. -/
inductive HTTPErr where
  | forbidden
  | badRequest
  | internalError (msg : String)
deriving DecidableEq, Repr

/-- The message dictionary rebuilt by `send_message_to_channel` before its own
re-broadcast (file fields nulled, `is_archived` false). -/
def routerDictOf (m : Row) : Row :=
  { m with file_url := none, file_name := none, file_type := none, is_archived := false }

/-- What `POST /channels/{id}/chat` of `channels/router.py` produces. -/
structure RouterOut where
  response : Except HTTPErr (List Row)
  db : Db
  state : ManagerState
  deliveries : List (Conn × EventType)
deriving Repr

/-- `send_message_to_channel` (`channels/router.py` lines 311-370): reject
non-members (403) and blank messages (400); otherwise run
`process_channel_message` — which already broadcasts both messages — and then
broadcast each returned message a second time, again excluding the sender,
before returning `{"messages": messages}`. -/
def sendMessageToChannel (aiProvider : String) (outcome : Except String String)
    (sendOk : Conn → Bool) (isMember : Bool) (user_id : Int) (msg : String)
    (channel_id : Int) (db : Db) (st : ManagerState) : RouterOut :=
  if !isMember then { response := .error .forbidden, db := db, state := st, deliveries := [] }
  else if pyStrip msg = "" then
    { response := .error .badRequest, db := db, state := st, deliveries := [] }
  else
    let po := processChannelMessage aiProvider outcome sendOk user_id msg channel_id db st
    let rb := po.result.foldl
      (fun (acc : ManagerState × List (Conn × EventType)) m =>
        let b := broadcastNewMessageExcludeUser sendOk acc.1 channel_id (routerDictOf m) user_id
        (b.1, acc.2 ++ b.2))
      (po.state, [])
    { response := .ok po.result, db := po.db, state := rb.1,
      deliveries := po.deliveries ++ rb.2 }

/-- Count the `new_message` events delivered to one connection. -/
def countNewMessages (ds : List (Conn × EventType)) (c : Conn) : Nat :=
  (ds.filter fun p => p.1 == c && match p.2 with
    | EventType.new_message _ => true
    | _ => false).length

/-! ## AI provider retry policy (`ai_providers.py`) -/

/-- A Python exception, split by whether it is a `ValueError` (the class used
for configuration failures, and the class the retry predicate refuses to
retry). -/
inductive PyError where
  | valueError (msg : String)
  | apiError (msg : String)
deriving DecidableEq, Repr

/-- `str(e)` for our exception model. -/
def errMsg : PyError → String
  | .valueError m => m
  | .apiError m => m

/-- `tenacity.retry_if_not_exception_type(ValueError)`. -/
def retryIfNotValueError : PyError → Bool
  | .valueError _ => false
  | .apiError _ => true

/-- `tenacity.wait_exponential(multiplier=1, min=4, max=10)`: the wait before
re-attempt `n + 1`, clamped into `[4, 10]`. -/
def waitExp (multiplier mn mx : Nat) (attempt : Nat) : Nat :=
  max mn (min mx (multiplier * 2 ^ attempt))

/-- The tenacity retry loop: run attempt `attempt`, and on a retryable failure
recurse while `remaining > 0`.  Returns the number of attempts actually made
together with the final outcome. -/
def retryGo (shouldRetry : PyError → Bool) (call : Nat → Except PyError String) :
    Nat → Nat → Nat × Except PyError String
  | attempt, remaining =>
    match call attempt with
    | .ok t => (attempt, .ok t)
    | .error e =>
      match remaining with
      | 0 => (attempt, .error e)
      | r + 1 =>
        if shouldRetry e then retryGo shouldRetry call (attempt + 1) r
        else (attempt, .error e)

/-- `@retry(retry=retry_if_not_exception_type(ValueError), stop=stop_after_attempt(n), ...)`. -/
def retryCall (shouldRetry : PyError → Bool) (maxAttempts : Nat)
    (call : Nat → Except PyError String) : Nat × Except PyError String :=
  retryGo shouldRetry call 1 (maxAttempts - 1)

/-- The body of `GroqProvider.generate_response`: a missing API key raises
`ValueError` immediately; otherwise the Groq client call runs, with `api n`
the outcome of attempt `n`. -/
def groqGenerateBody (configured : Bool) (api : Nat → Except PyError String)
    (attempt : Nat) : Except PyError String :=
  if configured then api attempt
  else .error (.valueError "Groq API key not configured")

/-- `GroqProvider.generate_response` with its decorator. -/
def groqGenerateResponse (configured : Bool) (api : Nat → Except PyError String) :
    Nat × Except PyError String :=
  retryCall retryIfNotValueError 3 (groqGenerateBody configured api)

/-- The body of `GeminiProvider.generate_response`: a missing key raises
`ValueError` outside the inner `try`; inside it, an empty response raises
`ValueError`, and the catch-all `except` re-raises EVERY exception as
`ValueError("Gemini API error: " + str(e))`. -/
def geminiGenerateBody (configured : Bool) (api : Nat → Except PyError String)
    (attempt : Nat) : Except PyError String :=
  if !configured then .error (.valueError "Gemini API key not configured")
  else
    match api attempt with
    | .ok t =>
      if t = "" then .error (.valueError "Gemini API error: Empty response from Gemini API")
      else .ok (pyStrip t)
    | .error e => .error (.valueError ("Gemini API error: " ++ errMsg e))

/-- `GeminiProvider.generate_response` with its decorator. -/
def geminiGenerateResponse (configured : Bool) (api : Nat → Except PyError String) :
    Nat × Except PyError String :=
  retryCall retryIfNotValueError 3 (geminiGenerateBody configured api)

/-! ## Concrete demonstration states -/

/-- Channel 7 with three live connections (conn 1/2/3 for users 10/11/12). -/
def wsDemo : ManagerState :=
  { active_connections := [(7, [1, 2, 3])],
    connection_users :=
      [(1, ⟨10, "ann", 7⟩), (2, ⟨11, "bob", 7⟩), (3, ⟨12, "cay", 7⟩)] }

/-- The spec's scenario: channel 42 where users 1, 2, 3 each hold one live
connection (conn `n` belongs to user `n`). -/
def c1State : ManagerState :=
  { active_connections := [(42, [1, 2, 3])],
    connection_users :=
      [(1, ⟨1, "u", 42⟩), (2, ⟨2, "v", 42⟩), (3, ⟨3, "w", 42⟩)] }

/-! ## Association-list lemmas -/

theorem alookup_aset_self {α β : Type} [DecidableEq α] (k : α) (v : β) (l : List (α × β)) :
    alookup k (aset k v l) = some v := by
  induction l with
  | nil => simp [aset, alookup]
  | cons p xs ih =>
    by_cases hp : p.1 = k
    · simp [aset, alookup, hp]
    · cases p with
      | mk a b => simp only at hp; simp [aset, alookup, hp, ih]

theorem alookup_aset_ne {α β : Type} [DecidableEq α] {k k' : α} (v : β) (l : List (α × β))
    (h : k' ≠ k) : alookup k' (aset k v l) = alookup k' l := by
  induction l with
  | nil => simp [aset, alookup, Ne.symm h]
  | cons p xs ih =>
    cases p with
    | mk a b =>
      by_cases hp : a = k
      · subst hp; simp [aset, alookup, Ne.symm h]
      · by_cases hq : a = k'
        · simp [aset, alookup, hp, hq, h]
        · simp [aset, alookup, hp, hq, ih]

theorem alookup_aerase_ne {α β : Type} [DecidableEq α] {k k' : α} (l : List (α × β))
    (h : k' ≠ k) : alookup k' (aerase k l) = alookup k' l := by
  induction l with
  | nil => simp [aerase]
  | cons p xs ih =>
    cases p with
    | mk a b =>
      by_cases hp : a = k
      · subst hp; simp [aerase, alookup, Ne.symm h]
      · by_cases hq : a = k'
        · simp [aerase, alookup, hp, hq, h]
        · simp [aerase, alookup, hp, hq, ih]

theorem alookup_mem {α β : Type} [DecidableEq α] {k : α} {v : β} {l : List (α × β)}
    (h : alookup k l = some v) : (k, v) ∈ l := by
  induction l with
  | nil => simp [alookup] at h
  | cons p xs ih =>
    cases p with
    | mk a b =>
      by_cases hp : a = k
      · subst hp
        simp [alookup] at h
        subst h
        exact List.mem_cons_self _ _
      · simp only [alookup, if_neg hp] at h
        exact List.mem_cons_of_mem _ (ih h)

theorem alookup_isSome_of_mem {α β : Type} [DecidableEq α] {k : α} {v : β}
    {l : List (α × β)} (h : (k, v) ∈ l) : (alookup k l).isSome := by
  induction l with
  | nil => simp at h
  | cons p xs ih =>
    cases p with
    | mk a b =>
      by_cases hp : a = k
      · simp [alookup, hp]
      · rcases List.mem_cons.mp h with heq | hmem
        · cases heq; exact absurd rfl hp
        · simp [alookup, hp, ih hmem]

theorem mem_of_mem_aerase {α β : Type} [DecidableEq α] {k : α} {p : α × β}
    {l : List (α × β)} (h : p ∈ aerase k l) : p ∈ l := by
  induction l with
  | nil => simp [aerase] at h
  | cons q xs ih =>
    cases q with
    | mk a b =>
      by_cases hp : a = k
      · simp only [aerase, if_pos hp] at h
        exact List.mem_cons_of_mem _ h
      · simp only [aerase, if_neg hp] at h
        rcases List.mem_cons.mp h with heq | hmem
        · exact heq ▸ List.mem_cons_self _ _
        · exact List.mem_cons_of_mem _ (ih hmem)

theorem alookup_aerase_self {α β : Type} [DecidableEq α] (k : α) {l : List (α × β)}
    (h : KeysNodup l) : alookup k (aerase k l) = none := by
  induction l with
  | nil => simp [aerase, alookup]
  | cons p xs ih =>
    cases p with
    | mk a b =>
      simp only [KeysNodup, List.map_cons, List.nodup_cons] at h
      by_cases hp : a = k
      · subst hp
        simp only [aerase, if_pos rfl]
        cases he : alookup a xs with
        | none => exact he
        | some v =>
          exact absurd (List.mem_map_of_mem Prod.fst (alookup_mem he)) h.1
      · simp [aerase, alookup, hp, ih h.2]

theorem alookup_aerase_none {α β : Type} [DecidableEq α] {k k' : α} {l : List (α × β)}
    (h : alookup k' l = none) : alookup k' (aerase k l) = none := by
  by_cases hk : k' = k
  · subst hk
    cases he : alookup k' (aerase k' l) with
    | none => rfl
    | some v =>
      have hm := alookup_mem he
      have h2 : (k', v) ∈ l := mem_of_mem_aerase hm
      have h3 := alookup_isSome_of_mem h2
      rw [h] at h3; simp at h3
  · rw [alookup_aerase_ne l hk]; exact h

theorem mem_aerase_ne {α β : Type} [DecidableEq α] {k : α} {p : α × β} {l : List (α × β)}
    (hn : KeysNodup l) (h : p ∈ aerase k l) : p ∈ l ∧ p.1 ≠ k := by
  induction l with
  | nil => simp [aerase] at h
  | cons q xs ih =>
    cases q with
    | mk a b =>
      simp only [KeysNodup, List.map_cons, List.nodup_cons] at hn
      by_cases hp : a = k
      · subst hp
        simp only [aerase, if_pos rfl] at h
        refine ⟨List.mem_cons_of_mem _ h, ?_⟩
        intro hpk
        exact hn.1 (hpk ▸ List.mem_map_of_mem Prod.fst h)
      · simp only [aerase, if_neg hp] at h
        rcases List.mem_cons.mp h with heq | hmem
        · subst heq; exact ⟨List.mem_cons_self _ _, hp⟩
        · obtain ⟨h1, h2⟩ := ih hn.2 hmem
          exact ⟨List.mem_cons_of_mem _ h1, h2⟩

theorem mem_aset_elim {α β : Type} [DecidableEq α] {k : α} {v : β} {p : α × β}
    {l : List (α × β)} (hn : KeysNodup l) (h : p ∈ aset k v l) :
    (p ∈ l ∧ p.1 ≠ k) ∨ p = (k, v) := by
  induction l with
  | nil => simp [aset] at h; right; exact h
  | cons q xs ih =>
    cases q with
    | mk a b =>
      simp only [KeysNodup, List.map_cons, List.nodup_cons] at hn
      by_cases hp : a = k
      · subst hp
        simp only [aset, if_pos rfl] at h
        rcases List.mem_cons.mp h with heq | hmem
        · right; exact heq
        · left
          refine ⟨List.mem_cons_of_mem _ hmem, ?_⟩
          intro hpk
          exact hn.1 (hpk ▸ List.mem_map_of_mem Prod.fst hmem)
      · simp only [aset, if_neg hp] at h
        rcases List.mem_cons.mp h with heq | hmem
        · subst heq; exact Or.inl ⟨List.mem_cons_self _ _, hp⟩
        · rcases ih hn.2 hmem with ⟨h1, h2⟩ | heq
          · exact Or.inl ⟨List.mem_cons_of_mem _ h1, h2⟩
          · exact Or.inr heq

theorem keysNodup_aerase {α β : Type} [DecidableEq α] (k : α) {l : List (α × β)}
    (h : KeysNodup l) : KeysNodup (aerase k l) := by
  induction l with
  | nil => simpa [aerase] using h
  | cons q xs ih =>
    cases q with
    | mk a b =>
      simp only [KeysNodup, List.map_cons, List.nodup_cons] at h
      by_cases hp : a = k
      · simpa [aerase, hp, KeysNodup] using h.2
      · have h2 := ih h.2
        simp only [aerase, if_neg hp, KeysNodup, List.map_cons, List.nodup_cons]
        refine ⟨?_, h2⟩
        intro hmem
        rcases List.mem_map.mp hmem with ⟨p, hpmem, hpk⟩
        exact h.1 (List.mem_map.mpr ⟨p, mem_of_mem_aerase hpmem, hpk⟩)

theorem keysNodup_aset {α β : Type} [DecidableEq α] (k : α) (v : β) {l : List (α × β)}
    (h : KeysNodup l) : KeysNodup (aset k v l) := by
  induction l with
  | nil => simp [aset, KeysNodup]
  | cons q xs ih =>
    cases q with
    | mk a b =>
      simp only [KeysNodup, List.map_cons, List.nodup_cons] at h
      by_cases hp : a = k
      · subst hp
        simpa [aset, KeysNodup] using h
      · have h2 := ih h.2
        simp only [aset, if_neg hp, KeysNodup, List.map_cons, List.nodup_cons]
        refine ⟨?_, h2⟩
        intro hmem
        rcases List.mem_map.mp hmem with ⟨p, hpmem, hpk⟩
        rcases mem_aset_elim h.2 hpmem with ⟨h1, _⟩ | heq
        · exact h.1 (List.mem_map.mpr ⟨p, h1, hpk⟩)
        · subst heq; exact hp hpk.symm

/-! ## Facts about `disconnectStep`, `pruneStepFirst` and `pruneAllFuel` -/

theorem disconnectStep_none_iff (st : ManagerState) (c : Conn) :
    disconnectStep st c = none ↔ alookup c st.connection_users = none := by
  unfold disconnectStep
  cases alookup c st.connection_users <;> simp

theorem disconnectStep_users (st : ManagerState) (c : Conn) (st1 : ManagerState)
    (info : UserInfo) (h : disconnectStep st c = some (st1, info)) :
    alookup c st.connection_users = some info ∧
      st1.connection_users = aerase c st.connection_users := by
  unfold disconnectStep at h
  cases hl : alookup c st.connection_users with
  | none => rw [hl] at h; simp at h
  | some info0 =>
    rw [hl] at h
    simp only [Option.some.injEq, Prod.mk.injEq] at h
    obtain ⟨h1, h2⟩ := h
    subst h2
    constructor
    · rfl
    · rw [← h1]

theorem aerase_length_of_some {α β : Type} [DecidableEq α] {k : α} {v : β}
    {l : List (α × β)} (h : alookup k l = some v) :
    (aerase k l).length + 1 = l.length := by
  induction l with
  | nil => simp [alookup] at h
  | cons p xs ih =>
    cases p with
    | mk a b =>
      by_cases hp : a = k
      · simp [aerase, hp]
      · simp only [alookup, if_neg hp] at h
        simp [aerase, hp, ih h]

theorem disconnectStep_users_length (st : ManagerState) (c : Conn) (st1 : ManagerState)
    (info : UserInfo) (h : disconnectStep st c = some (st1, info)) :
    st1.connection_users.length + 1 = st.connection_users.length := by
  obtain ⟨h1, h2⟩ := disconnectStep_users st c st1 info h
  rw [h2]
  exact aerase_length_of_some h1

theorem pruneStepFirst_none (st : ManagerState) (wl : List Conn)
    (h : pruneStepFirst st wl = none) : ∀ d ∈ wl, disconnectStep st d = none := by
  induction wl with
  | nil => intro d hd; simp at hd
  | cons x xs ih =>
    intro d hd
    unfold pruneStepFirst at h
    cases hx : disconnectStep st x with
    | none =>
      rw [hx] at h
      rcases List.mem_cons.mp hd with rfl | hmem
      · exact hx
      · exact ih h d hmem
    | some p => rw [hx] at h; simp at h

theorem pruneStepFirst_some (st : ManagerState) (wl : List Conn) (st1 : ManagerState)
    (info : UserInfo) (rest : List Conn)
    (h : pruneStepFirst st wl = some (st1, info, rest)) :
    ∃ pre d, wl = pre ++ d :: rest ∧ (∀ x ∈ pre, disconnectStep st x = none) ∧
      disconnectStep st d = some (st1, info) := by
  induction wl with
  | nil => simp [pruneStepFirst] at h
  | cons x xs ih =>
    unfold pruneStepFirst at h
    cases hx : disconnectStep st x with
    | none =>
      rw [hx] at h
      obtain ⟨pre, d, hsplit, hpre, hd⟩ := ih h
      refine ⟨x :: pre, d, by simp [hsplit], ?_, hd⟩
      intro y hy
      rcases List.mem_cons.mp hy with rfl | hmem
      · exact hx
      · exact hpre y hmem
    | some p =>
      rw [hx] at h
      cases p with
      | mk a b =>
        simp only [Option.some.injEq, Prod.mk.injEq] at h
        obtain ⟨h1, h2, h3⟩ := h
        subst h1; subst h2; subst h3
        exact ⟨[], x, by simp, by simp, hx⟩

/-! ## The registry invariant is preserved by every operation -/

theorem inv_roster_iff {st : ManagerState} (hInv : Inv st) (c : Conn) (ch : Int) :
    c ∈ rosterOf st ch ↔ connChannel st c = some ch := by
  obtain ⟨hA, hU, hR, hM⟩ := hInv
  constructor
  · intro hmem
    unfold rosterOf at hmem
    cases hl : alookup ch st.active_connections with
    | none => rw [hl] at hmem; simp at hmem
    | some roster =>
      rw [hl] at hmem
      simp only [Option.getD_some] at hmem
      exact ((hR (ch, roster) (alookup_mem hl)).2.2) c hmem
  · intro hcc
    unfold connChannel at hcc
    cases hl : alookup c st.connection_users with
    | none => rw [hl] at hcc; simp at hcc
    | some info =>
      rw [hl] at hcc
      simp only [Option.map_some', Option.some.injEq] at hcc
      have hm := hM (c, info) (alookup_mem hl)
      simp only at hm
      rwa [hcc] at hm

theorem notIn_of_alookup_none {st : ManagerState} (hInv : Inv st) {c : Conn}
    (h : alookup c st.connection_users = none) : NotIn c st := by
  refine ⟨h, fun ch hmem => ?_⟩
  have hcc := (inv_roster_iff hInv c ch).mp hmem
  unfold connChannel at hcc
  rw [h] at hcc
  simp at hcc

theorem disconnectStep_spec {st st1 : ManagerState} {c : Conn} {info : UserInfo}
    (h : disconnectStep st c = some (st1, info)) :
    alookup c st.connection_users = some info ∧
      st1.connection_users = aerase c st.connection_users ∧
      ((alookup info.channel_id st.active_connections = none ∧
          st1.active_connections = st.active_connections) ∨
        ∃ roster, alookup info.channel_id st.active_connections = some roster ∧
          (((roster.erase c).isEmpty = true ∧
              st1.active_connections = aerase info.channel_id st.active_connections) ∨
            ((roster.erase c).isEmpty = false ∧
              st1.active_connections = aset info.channel_id (roster.erase c) st.active_connections))) := by
  unfold disconnectStep at h
  cases hl : alookup c st.connection_users with
  | none => rw [hl] at h; simp at h
  | some info0 =>
    rw [hl] at h
    simp only [Option.some.injEq, Prod.mk.injEq] at h
    obtain ⟨h1, h2⟩ := h
    subst h2
    subst h1
    refine ⟨rfl, rfl, ?_⟩
    cases hl2 : alookup info0.channel_id st.active_connections with
    | none => exact Or.inl ⟨rfl, rfl⟩
    | some roster =>
      refine Or.inr ⟨roster, rfl, ?_⟩
      by_cases hempty : (roster.erase c).isEmpty = true
      · left
        refine ⟨hempty, ?_⟩
        dsimp only
        rw [if_pos hempty]
      · right
        refine ⟨by simpa using hempty, ?_⟩
        dsimp only
        rw [if_neg hempty]

theorem disconnectStep_notIn {st st1 : ManagerState} {c : Conn} {info : UserInfo}
    (hA : KeysNodup st.active_connections)
    (h : disconnectStep st c = some (st1, info)) {x : Conn} (hx : NotIn x st) :
    NotIn x st1 := by
  obtain ⟨hl, hu, ha⟩ := disconnectStep_spec h
  obtain ⟨hx1, hx2⟩ := hx
  refine ⟨by rw [hu]; exact alookup_aerase_none hx1, fun ch => ?_⟩
  intro hmem
  unfold rosterOf at hmem
  rcases ha with ⟨hnone, heq⟩ | ⟨roster, hsome, ⟨hempty, heq⟩ | ⟨hempty, heq⟩⟩
  · rw [heq] at hmem
    exact hx2 ch hmem
  · rw [heq] at hmem
    by_cases hch : ch = info.channel_id
    · subst hch
      rw [alookup_aerase_self _ hA] at hmem
      simp at hmem
    · rw [alookup_aerase_ne _ hch] at hmem
      exact hx2 ch hmem
  · rw [heq] at hmem
    by_cases hch : ch = info.channel_id
    · subst hch
      rw [alookup_aset_self] at hmem
      simp only [Option.getD_some] at hmem
      have hxr : x ∈ roster := List.erase_subset _ _ hmem
      have hfin : x ∈ rosterOf st info.channel_id := by
        unfold rosterOf; rw [hsome]; simpa using hxr
      exact hx2 info.channel_id hfin
    · rw [alookup_aset_ne _ _ hch] at hmem
      exact hx2 ch hmem

theorem disconnectStep_inv {st st1 : ManagerState} {c : Conn} {info : UserInfo}
    (hInv : Inv st) (h : disconnectStep st c = some (st1, info)) :
    Inv st1 ∧ NotIn c st1 := by
  obtain ⟨hl, hu, ha⟩ := disconnectStep_spec h
  obtain ⟨hA, hU, hR, hM⟩ := hInv
  have hcmem : (c, info) ∈ st.connection_users := alookup_mem hl
  have hcin : c ∈ rosterOf st info.channel_id := by
    have := hM (c, info) hcmem
    simpa using this
  have hcc : connChannel st c = some info.channel_id := by
    unfold connChannel; rw [hl]; rfl
  -- the roster of `info.channel_id` exists
  have hsome : ∃ roster, alookup info.channel_id st.active_connections = some roster := by
    unfold rosterOf at hcin
    cases hl2 : alookup info.channel_id st.active_connections with
    | none => rw [hl2] at hcin; simp at hcin
    | some roster => exact ⟨roster, rfl⟩
  obtain ⟨roster, hl2⟩ := hsome
  have hcroster : c ∈ roster := by
    unfold rosterOf at hcin; rw [hl2] at hcin; simpa using hcin
  have hrosmem : (info.channel_id, roster) ∈ st.active_connections := alookup_mem hl2
  obtain ⟨hrne, hrnd, hrcc⟩ := hR (info.channel_id, roster) hrosmem
  simp only at hrne hrnd hrcc
  -- discard the impossible `none` branch of the spec
  rcases ha with ⟨hnone, _⟩ | ⟨roster', hsome', hbr⟩
  · rw [hl2] at hnone; exact absurd hnone (by simp)
  rw [hl2] at hsome'
  injection hsome' with hreq
  subst hreq
  -- shared facts
  have hlook : ∀ x : Conn, x ≠ c →
      alookup x st1.connection_users = alookup x st.connection_users := by
    intro x hxc
    rw [hu]
    exact alookup_aerase_ne _ hxc
  have hccne : ∀ x : Conn, x ≠ c → connChannel st1 x = connChannel st x := by
    intro x hxc
    unfold connChannel
    rw [hlook x hxc]
  have hKU : KeysNodup st1.connection_users := by
    rw [hu]; exact keysNodup_aerase _ hU
  have husers : ∀ q ∈ st1.connection_users, q ∈ st.connection_users ∧ q.1 ≠ c := by
    intro q hq
    rw [hu] at hq
    exact mem_aerase_ne hU hq
  have hulook : alookup c st1.connection_users = none := by
    rw [hu]; exact alookup_aerase_self c hU
  -- the old-entry part of the roster conditions, shared by both branches
  have holdro : ∀ p ∈ st.active_connections, p.1 ≠ info.channel_id →
      p.2 ≠ [] ∧ p.2.Nodup ∧ ∀ x ∈ p.2, connChannel st1 x = some p.1 := by
    intro p hpold hpne
    obtain ⟨h1, h2, h3⟩ := hR p hpold
    refine ⟨h1, h2, fun x hx => ?_⟩
    have hxc : x ≠ c := by
      intro hxc; subst hxc
      have hpcc := h3 x hx
      rw [hcc] at hpcc
      injection hpcc with hh
      exact hpne hh.symm
    rw [hccne x hxc]
    exact h3 x hx
  rcases hbr with ⟨hempty, heq⟩ | ⟨hempty, heq⟩
  · -- the roster became empty and the channel entry was dropped
    have hKA : KeysNodup st1.active_connections := by
      rw [heq]; exact keysNodup_aerase _ hA
    have hrosters : ∀ p ∈ st1.active_connections,
        p.2 ≠ [] ∧ p.2.Nodup ∧ ∀ x ∈ p.2, connChannel st1 x = some p.1 := by
      intro p hp
      rw [heq] at hp
      obtain ⟨hpold, hpne⟩ := mem_aerase_ne hA hp
      exact holdro p hpold hpne
    have hmeta : ∀ q ∈ st1.connection_users, q.1 ∈ rosterOf st1 q.2.channel_id := by
      intro q hq
      obtain ⟨hqold, hqc⟩ := husers q hq
      have hqin : q.1 ∈ rosterOf st q.2.channel_id := hM q hqold
      by_cases hch : q.2.channel_id = info.channel_id
      · exfalso
        rw [hch] at hqin
        have hqroster : q.1 ∈ roster := by
          unfold rosterOf at hqin; rw [hl2] at hqin; simpa using hqin
        have hqerase : q.1 ∈ roster.erase c := hrnd.mem_erase_iff.mpr ⟨hqc, hqroster⟩
        rw [List.isEmpty_iff] at hempty
        rw [hempty] at hqerase
        simp at hqerase
      · unfold rosterOf
        rw [heq, alookup_aerase_ne _ hch]
        exact hqin
    refine ⟨⟨hKA, hKU, hrosters, hmeta⟩, hulook, ?_⟩
    intro ch hmem
    unfold rosterOf at hmem
    rw [heq] at hmem
    by_cases hch : ch = info.channel_id
    · subst hch
      rw [alookup_aerase_self _ hA] at hmem
      simp at hmem
    · rw [alookup_aerase_ne _ hch] at hmem
      have hcin2 : c ∈ rosterOf st ch := hmem
      have := (inv_roster_iff ⟨hA, hU, hR, hM⟩ c ch).mp hcin2
      rw [hcc] at this
      injection this with hh
      exact hch hh.symm
  · -- the shrunken roster was written back in place
    have hKA : KeysNodup st1.active_connections := by
      rw [heq]; exact keysNodup_aset _ _ hA
    have hrosters : ∀ p ∈ st1.active_connections,
        p.2 ≠ [] ∧ p.2.Nodup ∧ ∀ x ∈ p.2, connChannel st1 x = some p.1 := by
      intro p hp
      rw [heq] at hp
      rcases mem_aset_elim hA hp with ⟨hpold, hpne⟩ | hpeq
      · exact holdro p hpold hpne
      · subst hpeq
        refine ⟨?_, hrnd.erase c, fun x hx => ?_⟩
        · simp only
          intro hnil
          rw [hnil] at hempty
          simp at hempty
        · simp only at hx ⊢
          have hxroster : x ∈ roster := List.erase_subset _ _ hx
          have hxc : x ≠ c := by
            intro hxc; subst hxc
            exact (hrnd.mem_erase_iff.mp hx).1 rfl
          rw [hccne x hxc]
          exact hrcc x hxroster
    have hmeta : ∀ q ∈ st1.connection_users, q.1 ∈ rosterOf st1 q.2.channel_id := by
      intro q hq
      obtain ⟨hqold, hqc⟩ := husers q hq
      have hqin : q.1 ∈ rosterOf st q.2.channel_id := hM q hqold
      by_cases hch : q.2.channel_id = info.channel_id
      · rw [hch] at hqin ⊢
        have hqroster : q.1 ∈ roster := by
          unfold rosterOf at hqin; rw [hl2] at hqin; simpa using hqin
        have hqerase : q.1 ∈ roster.erase c := hrnd.mem_erase_iff.mpr ⟨hqc, hqroster⟩
        unfold rosterOf
        rw [heq, alookup_aset_self]
        simpa using hqerase
      · unfold rosterOf
        rw [heq, alookup_aset_ne _ _ hch]
        exact hqin
    refine ⟨⟨hKA, hKU, hrosters, hmeta⟩, hulook, ?_⟩
    intro ch hmem
    unfold rosterOf at hmem
    rw [heq] at hmem
    by_cases hch : ch = info.channel_id
    · subst hch
      rw [alookup_aset_self] at hmem
      simp only [Option.getD_some] at hmem
      exact (hrnd.mem_erase_iff.mp hmem).1 rfl
    · rw [alookup_aset_ne _ _ hch] at hmem
      have hcin2 : c ∈ rosterOf st ch := hmem
      have := (inv_roster_iff ⟨hA, hU, hR, hM⟩ c ch).mp hcin2
      rw [hcc] at this
      injection this with hh
      exact hch hh.symm

theorem pruneAllFuel_inv (sendOk : Conn → Bool) :
    ∀ (n : Nat) (st : ManagerState) (wl : List Conn), Inv st →
      Inv (pruneAllFuel sendOk n st wl).1 := by
  intro n
  induction n with
  | zero => intro st wl h; exact h
  | succ n ih =>
    intro st wl h
    unfold pruneAllFuel
    cases hps : pruneStepFirst st wl with
    | none => exact h
    | some t =>
      obtain ⟨st1, info, rest⟩ := t
      obtain ⟨pre, d, hsplit, hpre, hd⟩ := pruneStepFirst_some st wl st1 info rest hps
      exact ih st1 _ (disconnectStep_inv h hd).1

theorem pruneAllFuel_notIn (sendOk : Conn → Bool) :
    ∀ (n : Nat) (st : ManagerState) (wl : List Conn) (x : Conn), Inv st → NotIn x st →
      NotIn x (pruneAllFuel sendOk n st wl).1 := by
  intro n
  induction n with
  | zero => intro st wl x _ hx; exact hx
  | succ n ih =>
    intro st wl x h hx
    unfold pruneAllFuel
    cases hps : pruneStepFirst st wl with
    | none => exact hx
    | some t =>
      obtain ⟨st1, info, rest⟩ := t
      obtain ⟨pre, d, hsplit, hpre, hd⟩ := pruneStepFirst_some st wl st1 info rest hps
      exact ih st1 _ x (disconnectStep_inv h hd).1 (disconnectStep_notIn h.1 hd hx)

theorem pruneAllFuel_users_none (sendOk : Conn → Bool) :
    ∀ (n : Nat) (st : ManagerState) (wl : List Conn) (x : Conn),
      alookup x st.connection_users = none →
      alookup x (pruneAllFuel sendOk n st wl).1.connection_users = none := by
  intro n
  induction n with
  | zero => intro st wl x hx; exact hx
  | succ n ih =>
    intro st wl x hx
    unfold pruneAllFuel
    cases hps : pruneStepFirst st wl with
    | none => exact hx
    | some t =>
      obtain ⟨st1, info, rest⟩ := t
      obtain ⟨pre, d, hsplit, hpre, hd⟩ := pruneStepFirst_some st wl st1 info rest hps
      obtain ⟨_, hu, _⟩ := disconnectStep_spec hd
      refine ih st1 _ x ?_
      rw [hu]
      exact alookup_aerase_none hx

theorem pruneAllFuel_removes (sendOk : Conn → Bool) :
    ∀ (n : Nat) (st : ManagerState) (wl : List Conn) (x : Conn), Inv st →
      st.connection_users.length ≤ n → x ∈ wl →
      NotIn x (pruneAllFuel sendOk n st wl).1 := by
  intro n
  induction n with
  | zero =>
    intro st wl x hInv hn _
    have husers : st.connection_users = [] :=
      List.eq_nil_of_length_eq_zero (Nat.le_zero.mp hn)
    refine notIn_of_alookup_none hInv ?_
    rw [husers]
    rfl
  | succ n ih =>
    intro st wl x hInv hn hx
    unfold pruneAllFuel
    cases hps : pruneStepFirst st wl with
    | none =>
      have hnone := pruneStepFirst_none st wl hps x hx
      exact notIn_of_alookup_none hInv ((disconnectStep_none_iff st x).mp hnone)
    | some t =>
      obtain ⟨st1, info, rest⟩ := t
      obtain ⟨pre, d, hsplit, hpre, hd⟩ := pruneStepFirst_some st wl st1 info rest hps
      obtain ⟨hInv1, hdgone⟩ := disconnectStep_inv hInv hd
      have hlen : st1.connection_users.length ≤ n := by
        have := disconnectStep_users_length st d st1 info hd
        omega
      subst hsplit
      rcases List.mem_append.mp hx with hxpre | hxdr
      · have hnone := hpre x hxpre
        have hxnotin : NotIn x st :=
          notIn_of_alookup_none hInv ((disconnectStep_none_iff st x).mp hnone)
        exact pruneAllFuel_notIn sendOk n st1 _ x hInv1
          (disconnectStep_notIn hInv.1 hd hxnotin)
      · rcases List.mem_cons.mp hxdr with rfl | hxrest
        · exact pruneAllFuel_notIn sendOk n st1 _ x hInv1 hdgone
        · exact ih st1 _ x hInv1 hlen (List.mem_append_right _ hxrest)

theorem pruneAll_inv {st : ManagerState} (sendOk : Conn → Bool) (wl : List Conn)
    (h : Inv st) : Inv (pruneAll sendOk st wl).1 :=
  pruneAllFuel_inv sendOk _ st wl h

theorem pruneAll_removes {st : ManagerState} (sendOk : Conn → Bool) {wl : List Conn}
    {x : Conn} (hInv : Inv st) (hx : x ∈ wl) : NotIn x (pruneAll sendOk st wl).1 :=
  pruneAllFuel_removes sendOk _ st wl x hInv (Nat.le_refl _) hx

theorem broadcastToChannel_inv {st : ManagerState} (sendOk : Conn → Bool) (ch : Int)
    (ev : EventType) (excl : Option Conn) (h : Inv st) :
    Inv (broadcastToChannel sendOk st ch ev excl).1 := by
  unfold broadcastToChannel
  cases alookup ch st.active_connections with
  | none => exact h
  | some roster => exact pruneAll_inv sendOk _ h

theorem broadcastNewMessageExcludeUser_inv {st : ManagerState} (sendOk : Conn → Bool)
    (ch : Int) (m : Row) (uid : Int) (h : Inv st) :
    Inv (broadcastNewMessageExcludeUser sendOk st ch m uid).1 := by
  unfold broadcastNewMessageExcludeUser
  cases alookup ch st.active_connections with
  | none => exact h
  | some roster => exact pruneAll_inv sendOk _ h

theorem connect_register_inv {st : ManagerState} {c : Conn} {ch : Int} {uid : Int}
    {name : String} (hInv : Inv st) (hfresh : alookup c st.connection_users = none) :
    Inv { active_connections := aset ch (rosterOf st ch ++ [c]) st.active_connections,
          connection_users := aset c ⟨uid, name, ch⟩ st.connection_users } := by
  obtain ⟨hA, hU, hR, hM⟩ := hInv
  have hcnotin : ∀ ch2, c ∉ rosterOf st ch2 := (notIn_of_alookup_none ⟨hA, hU, hR, hM⟩ hfresh).2
  have hrnodup : (rosterOf st ch).Nodup := by
    unfold rosterOf
    cases hl : alookup ch st.active_connections with
    | none => simp
    | some roster =>
      simpa using (hR (ch, roster) (alookup_mem hl)).2.1
  have hroset : ∀ x ∈ rosterOf st ch, connChannel st x = some ch := by
    intro x hx
    exact (inv_roster_iff ⟨hA, hU, hR, hM⟩ x ch).mp hx
  have hlookne : ∀ x : Conn, x ≠ c →
      alookup x (aset c (⟨uid, name, ch⟩ : UserInfo) st.connection_users) =
        alookup x st.connection_users := by
    intro x hxc
    exact alookup_aset_ne _ _ hxc
  refine ⟨keysNodup_aset _ _ hA, keysNodup_aset _ _ hU, ?_, ?_⟩
  · intro p hp
    simp only at hp
    rcases mem_aset_elim hA hp with ⟨hpold, hpne⟩ | hpeq
    · obtain ⟨h1, h2, h3⟩ := hR p hpold
      refine ⟨h1, h2, fun x hx => ?_⟩
      have hxc : x ≠ c := by
        intro hxc; subst hxc
        have := h3 x hx
        unfold connChannel at this
        rw [hfresh] at this
        simp at this
      unfold connChannel
      rw [hlookne x hxc]
      exact h3 x hx
    · subst hpeq
      refine ⟨by simp, ?_, fun x hx => ?_⟩
      · simp only
        rw [List.nodup_append]
        refine ⟨hrnodup, List.nodup_singleton c, ?_⟩
        intro a ha hb
        rw [List.mem_singleton] at hb
        subst hb
        exact hcnotin ch ha
      · simp only at hx ⊢
        rcases List.mem_append.mp hx with hxr | hxc
        · have hxc : x ≠ c := fun hxe => hcnotin ch (hxe ▸ hxr)
          unfold connChannel
          rw [hlookne x hxc]
          exact hroset x hxr
        · rw [List.mem_singleton] at hxc
          subst hxc
          unfold connChannel
          rw [alookup_aset_self]
          rfl
  · intro q hq
    simp only at hq
    rcases mem_aset_elim hU hq with ⟨hqold, hqc⟩ | hqeq
    · have hqin : q.1 ∈ rosterOf st q.2.channel_id := hM q hqold
      unfold rosterOf
      simp only
      by_cases hch : q.2.channel_id = ch
      · rw [hch, alookup_aset_self]
        simp only [Option.getD_some]
        refine List.mem_append_left _ ?_
        rw [hch] at hqin
        exact hqin
      · rw [alookup_aset_ne _ _ hch]
        exact hqin
    · subst hqeq
      unfold rosterOf
      simp only
      rw [alookup_aset_self]
      simp

theorem connectConn_inv {st : ManagerState} (sendOk : Conn → Bool) {c : Conn} {ch : Int}
    {uid : Int} {name : String} (hInv : Inv st)
    (hfresh : alookup c st.connection_users = none) :
    Inv (connectConn sendOk st c ch uid name).1 := by
  unfold connectConn
  have h1 := @connect_register_inv st c ch uid name hInv hfresh
  have h2 := broadcastToChannel_inv sendOk ch (EventType.user_joined uid name) (some c) h1
  cases hs : sendOk c with
  | true => simp only [hs, if_true]; exact h2
  | false =>
    simp only [hs, Bool.false_eq_true, if_false]
    exact pruneAll_inv sendOk _ h2

theorem applyOp_inv {st : ManagerState} (sendOk : Conn → Bool) (op : Op) (hInv : Inv st)
    (hok : opOk st op = true) : Inv (applyOp sendOk st op).1 := by
  cases op with
  | connect c ch uid name =>
    have : alookup c st.connection_users = none := by
      simpa [opOk, Option.isNone_iff_eq_none] using hok
    exact connectConn_inv sendOk hInv this
  | disconnect c => exact pruneAll_inv sendOk _ hInv
  | broadcast ch ev excl => exact broadcastToChannel_inv sendOk ch ev excl hInv
  | broadcastNewMsg ch m uid => exact broadcastNewMessageExcludeUser_inv sendOk ch m uid hInv

theorem runState_inv (sendOk : Conn → Bool) :
    ∀ (ops : List Op) (st : ManagerState), Inv st → opsOk sendOk st ops = true →
      Inv (runState sendOk st ops) := by
  intro ops
  induction ops with
  | nil => intro st h _; exact h
  | cons op rest ih =>
    intro st h hok
    unfold opsOk at hok
    rw [Bool.and_eq_true] at hok
    exact ih _ (applyOp_inv sendOk op h hok.1) hok.2

theorem inv_emptyState : Inv emptyState := by decide

/-! ## Behavioural lemmas about disconnect and the broadcasts -/

theorem pruneAll_nil_wl (sendOk : Conn → Bool) (st : ManagerState) :
    pruneAll sendOk st [] = (st, []) := by
  unfold pruneAll
  cases st.connection_users.length with
  | zero => rfl
  | succ n => rfl

theorem disconnect_noop (sendOk : Conn → Bool) {st : ManagerState} {c : Conn}
    (h : alookup c st.connection_users = none) :
    disconnectConn sendOk st c = (st, []) := by
  have hps : pruneStepFirst st [c] = none := by
    unfold pruneStepFirst
    rw [(disconnectStep_none_iff st c).mpr h]
    rfl
  unfold disconnectConn pruneAll
  cases st.connection_users.length with
  | zero => rfl
  | succ n =>
    unfold pruneAllFuel
    rw [hps]

theorem disconnect_clears (sendOk : Conn → Bool) {st : ManagerState} (c : Conn)
    (h : KeysNodup st.connection_users) :
    alookup c (disconnectConn sendOk st c).1.connection_users = none := by
  unfold disconnectConn pruneAll
  cases hlen : st.connection_users.length with
  | zero =>
    have husers : st.connection_users = [] := List.eq_nil_of_length_eq_zero hlen
    show alookup c st.connection_users = none
    rw [husers]
    rfl
  | succ n =>
    unfold pruneAllFuel
    cases hps : pruneStepFirst st [c] with
    | none =>
      exact (disconnectStep_none_iff st c).mp (pruneStepFirst_none st [c] hps c (by simp))
    | some t =>
      obtain ⟨st1, info, rest⟩ := t
      obtain ⟨pre, d, hsplit, hpre, hd⟩ := pruneStepFirst_some st [c] st1 info rest hps
      cases pre with
      | cons p0 ptl => simp at hsplit
      | nil =>
        simp only [List.nil_append, List.cons.injEq] at hsplit
        obtain ⟨rfl, rfl⟩ := hsplit
        obtain ⟨_, hu, _⟩ := disconnectStep_spec hd
        refine pruneAllFuel_users_none sendOk n st1 _ c ?_
        rw [hu]
        exact alookup_aerase_self c h

theorem broadcastNewMessageExcludeUser_all_ok (st : ManagerState) (ch : Int) (m : Row)
    (uid : Int) :
    broadcastNewMessageExcludeUser (fun _ => true) st ch m uid =
      (st, ((rosterOf st ch).filter fun c =>
          match alookup c st.connection_users with
          | some info => info.user_id != uid
          | none => true).map fun c => (c, EventType.new_message m)) := by
  unfold broadcastNewMessageExcludeUser
  cases hl : alookup ch st.active_connections with
  | none =>
    unfold rosterOf
    rw [hl]
    rfl
  | some roster =>
    unfold rosterOf
    rw [hl]
    dsimp only
    simp only [List.filter_true, Bool.not_true, List.filter_false, Option.getD_some]
    rw [pruneAll_nil_wl]
    simp

/-! ## Claim theorems -/

/-- C2: for every registry state (hence every roster, including the empty
one), `broadcast_new_message_exclude_user(channel_id, message, exclude_user_id)`
leaves the registry unchanged, sends the `new_message` event to exactly the
roster connections whose metadata does not carry `exclude_user_id`
(in roster order), sends nothing to any connection whose metadata records
`exclude_user_id`, and treats a connection missing from the metadata map as
not excluded (it receives the event; the call is total, so no error is
raised). -/
theorem C2_exclusion_correctness (st : ManagerState) (ch : Int) (m : Row) (uid : Int) :
    (broadcastNewMessageExcludeUser (fun _ => true) st ch m uid).1 = st ∧
    (broadcastNewMessageExcludeUser (fun _ => true) st ch m uid).2 =
      ((rosterOf st ch).filter fun c =>
        match alookup c st.connection_users with
        | some info => info.user_id != uid
        | none => true).map (fun c => (c, EventType.new_message m)) ∧
    (∀ c info, alookup c st.connection_users = some info → info.user_id = uid →
      ∀ e, (c, e) ∉ (broadcastNewMessageExcludeUser (fun _ => true) st ch m uid).2) ∧
    (∀ c ∈ rosterOf st ch, alookup c st.connection_users = none →
      (c, EventType.new_message m) ∈ (broadcastNewMessageExcludeUser (fun _ => true) st ch m uid).2) := by
  rw [broadcastNewMessageExcludeUser_all_ok]
  refine ⟨rfl, rfl, ?_, ?_⟩
  · intro c info hc hcuid e hmem
    simp only [List.mem_map] at hmem
    obtain ⟨x, hx, hxe⟩ := hmem
    rw [List.mem_filter] at hx
    have hxc : x = c := congrArg Prod.fst hxe
    subst hxc
    rw [hc] at hx
    simp [hcuid] at hx
  · intro c hc hnone
    simp only [List.mem_map]
    refine ⟨c, ?_, rfl⟩
    rw [List.mem_filter]
    refine ⟨hc, ?_⟩
    rw [hnone]

/-- C3: if exactly one peer `d` of a `K`-connection roster raises on send
during `broadcast_to_channel`, every other roster member is still delivered
the event, the call completes normally (the model is a total function — the
`try/except` of the source is embedded in the `sendOk` branch), and by the
time it returns `d` has been removed from every roster and from the metadata
map. -/
theorem C3_partial_failure_isolation (st : ManagerState) (ch : Int) (ev : EventType)
    (d : Conn) (hInv : Inv st) (hd : d ∈ rosterOf st ch) :
    (∀ x ∈ rosterOf st ch, x ≠ d →
      (x, ev) ∈ (broadcastToChannel (fun y => y != d) st ch ev none).2) ∧
    (∀ ch2, d ∉ rosterOf (broadcastToChannel (fun y => y != d) st ch ev none).1 ch2) ∧
    alookup d (broadcastToChannel (fun y => y != d) st ch ev none).1.connection_users = none := by
  have hsome : ∃ roster, alookup ch st.active_connections = some roster := by
    unfold rosterOf at hd
    cases hl : alookup ch st.active_connections with
    | none => rw [hl] at hd; simp at hd
    | some roster => exact ⟨roster, rfl⟩
  obtain ⟨roster, hl⟩ := hsome
  have hros : rosterOf st ch = roster := by unfold rosterOf; rw [hl]; rfl
  have hout : broadcastToChannel (fun y => y != d) st ch ev none =
      ((pruneAll (fun y => y != d) st (roster.filter fun c => !(c != d))).1,
        (roster.filter fun c => c != d).map (fun c => (c, ev)) ++
          (pruneAll (fun y => y != d) st (roster.filter fun c => !(c != d))).2) := by
    unfold broadcastToChannel
    rw [hl]
  have hdead : d ∈ roster.filter fun c => !(c != d) := by
    rw [List.mem_filter]
    exact ⟨hros ▸ hd, by simp⟩
  have hgone := pruneAll_removes (fun y => y != d) hInv hdead
  refine ⟨?_, ?_, ?_⟩
  · intro x hx hxd
    rw [hout]
    refine List.mem_append_left _ ?_
    simp only [List.mem_map]
    refine ⟨x, ?_, rfl⟩
    rw [List.mem_filter]
    refine ⟨hros ▸ hx, by simpa using hxd⟩
  · intro ch2
    rw [hout]
    exact hgone.2 ch2
  · rw [hout]
    exact hgone.1

/-- C3 witness: the concrete three-connection roster of `wsDemo`, with
connection 2 dead. -/
theorem C3_partial_failure_isolation_witness :
    (∀ x ∈ rosterOf wsDemo 7, x ≠ 2 →
      (x, EventType.user_joined 0 "t") ∈
        (broadcastToChannel (fun y => y != 2) wsDemo 7 (EventType.user_joined 0 "t") none).2) ∧
    (∀ ch2, 2 ∉ rosterOf
      (broadcastToChannel (fun y => y != 2) wsDemo 7 (EventType.user_joined 0 "t") none).1 ch2) ∧
    alookup 2 (broadcastToChannel (fun y => y != 2) wsDemo 7
      (EventType.user_joined 0 "t") none).1.connection_users = none :=
  C3_partial_failure_isolation wsDemo 7 (EventType.user_joined 0 "t") 2
    (by decide) (by decide)

/-- C5: `disconnect` is idempotent.  After a completed `disconnect(c)`, a
second `disconnect(c)` is a no-op: it changes no registry state and emits no
events at all (in particular no second `user_left` broadcast), and the model
is total, so no error is raised.  The only hypothesis is the `dict`
representation invariant (distinct keys), which every reachable
`connection_users` satisfies. -/
theorem C5_disconnect_idempotent (sendOk : Conn → Bool) (st : ManagerState) (c : Conn)
    (h : KeysNodup st.connection_users) :
    disconnectConn sendOk (disconnectConn sendOk st c).1 c =
      ((disconnectConn sendOk st c).1, []) :=
  disconnect_noop sendOk (disconnect_clears sendOk c h)

/-- C5 witness: disconnecting connection 1 of `wsDemo` twice. -/
theorem C5_disconnect_idempotent_witness :
    disconnectConn (fun _ => true) (disconnectConn (fun _ => true) wsDemo 1).1 1 =
      ((disconnectConn (fun _ => true) wsDemo 1).1, []) :=
  C5_disconnect_idempotent (fun _ => true) wsDemo 1 (by decide)

/-- C4 counterexample: the claim quantifies over EVERY sequence of `connect` /
`disconnect` calls, but `connect` has no guard against registering a handle
that is already connected; calling `connect` twice with the same connection
object (no intervening `disconnect`) leaves the channel-5 roster as `[1, 1]` —
a duplicate entry, refuting "no channel roster ever contains duplicate
connection entries" as stated. -/
theorem C4_duplicate_roster_cex :
    (runState (fun _ => true) emptyState
      [Op.connect 1 5 7 "a", Op.connect 1 5 7 "a"]).active_connections = [(5, [1, 1])] ∧
    (([1, 1] : List Conn).Nodup) = False :=
  ⟨by decide, eq_false (by decide)⟩

/-- C4 (amended with the freshness proviso the code needs, as in C10): for
every sequence of manager calls in which `connect` is only invoked with a
currently-unregistered connection handle, the reached state has no empty and
no duplicate-bearing rosters, and after `disconnect(c)` completes the
connection `c` is gone from the metadata map and from every channel roster —
hence the `online_users` snapshot (which is computed from the roster) no
longer contains an entry contributed by `c`. -/
theorem C4_roster_integrity (sendOk : Conn → Bool) (ops : List Op) (c : Conn)
    (h : opsOk sendOk emptyState ops = true) :
    (∀ p ∈ (runState sendOk emptyState ops).active_connections,
      p.2 ≠ [] ∧ p.2.Nodup) ∧
    alookup c (disconnectConn sendOk (runState sendOk emptyState ops) c).1.connection_users
      = none ∧
    ∀ ch, c ∉ rosterOf (disconnectConn sendOk (runState sendOk emptyState ops) c).1 ch := by
  have hInv := runState_inv sendOk ops emptyState inv_emptyState h
  have hgone := @pruneAll_removes (runState sendOk emptyState ops) sendOk [c] c hInv (by simp)
  exact ⟨fun p hp => ⟨(hInv.2.2.1 p hp).1, (hInv.2.2.1 p hp).2.1⟩, hgone.1, hgone.2⟩

/-- C4 witness: two fresh connections joining channel 5, then connection 1
disconnecting. -/
theorem C4_roster_integrity_witness :
    (∀ p ∈ (runState (fun _ => true) emptyState
        [Op.connect 1 5 7 "a", Op.connect 2 5 8 "b"]).active_connections,
      p.2 ≠ [] ∧ p.2.Nodup) ∧
    alookup 1 (disconnectConn (fun _ => true)
      (runState (fun _ => true) emptyState
        [Op.connect 1 5 7 "a", Op.connect 2 5 8 "b"]) 1).1.connection_users = none ∧
    ∀ ch, 1 ∉ rosterOf (disconnectConn (fun _ => true)
      (runState (fun _ => true) emptyState
        [Op.connect 1 5 7 "a", Op.connect 2 5 8 "b"]) 1).1 ch :=
  C4_roster_integrity (fun _ => true) [Op.connect 1 5 7 "a", Op.connect 2 5 8 "b"] 1
    (by decide)

/-- C10: provided `connect` is never invoked with a connection that is still
registered (the freshness proviso of the claim), every manager operation —
connect, disconnect, and both broadcasts — preserves the two-map consistency:
afterwards a connection is in the roster of channel `ch` iff its metadata
records `channel_id = ch`, and no connection sits in two different channels'
rosters. -/
theorem C10_registry_consistency (sendOk : Conn → Bool) (st : ManagerState) (op : Op)
    (hInv : Inv st) (hok : opOk st op = true) :
    Inv (applyOp sendOk st op).1 ∧
    (∀ c ch, c ∈ rosterOf (applyOp sendOk st op).1 ch ↔
      connChannel (applyOp sendOk st op).1 c = some ch) ∧
    (∀ c ch ch2, c ∈ rosterOf (applyOp sendOk st op).1 ch →
      c ∈ rosterOf (applyOp sendOk st op).1 ch2 → ch = ch2) := by
  have h1 := applyOp_inv sendOk op hInv hok
  refine ⟨h1, fun c ch => inv_roster_iff h1 c ch, fun c ch ch2 hm1 hm2 => ?_⟩
  have e1 := (inv_roster_iff h1 c ch).mp hm1
  have e2 := (inv_roster_iff h1 c ch2).mp hm2
  rw [e1] at e2
  injection e2

/-- C10 witness: a fresh connection 9 (user 13) joining channel 7 of
`wsDemo`. -/
theorem C10_registry_consistency_witness :
    Inv (applyOp (fun _ => true) wsDemo (Op.connect 9 7 13 "dee")).1 ∧
    (∀ c ch, c ∈ rosterOf (applyOp (fun _ => true) wsDemo (Op.connect 9 7 13 "dee")).1 ch ↔
      connChannel (applyOp (fun _ => true) wsDemo (Op.connect 9 7 13 "dee")).1 c = some ch) ∧
    (∀ c ch ch2, c ∈ rosterOf (applyOp (fun _ => true) wsDemo (Op.connect 9 7 13 "dee")).1 ch →
      c ∈ rosterOf (applyOp (fun _ => true) wsDemo (Op.connect 9 7 13 "dee")).1 ch2 →
      ch = ch2) :=
  C10_registry_consistency (fun _ => true) wsDemo (Op.connect 9 7 13 "dee")
    (by decide) (by decide)

/-- C1 (evaluation at the failing input): in the spec's scenario — channel 42,
users 1/2/3 with one live connection each, AI enabled — user 1 POSTs "hello".
`process_channel_message` broadcasts the user/AI pair excluding user 1, and
`send_message_to_channel` then broadcasts the same pair AGAIN: each of user 2's
and user 3's connections receives FOUR `new_message` events (user, AI, user,
AI), not the two the claim states, while user 1's connection receives zero,
and the HTTP response still carries the two messages. -/
theorem C1_double_broadcast_eval :
    countNewMessages (sendMessageToChannel "groq" (Except.ok "Hello!") (fun _ => true)
      true 1 "hello" 42 ⟨0, [], []⟩ c1State).deliveries 2 = 4 ∧
    countNewMessages (sendMessageToChannel "groq" (Except.ok "Hello!") (fun _ => true)
      true 1 "hello" 42 ⟨0, [], []⟩ c1State).deliveries 3 = 4 ∧
    countNewMessages (sendMessageToChannel "groq" (Except.ok "Hello!") (fun _ => true)
      true 1 "hello" 42 ⟨0, [], []⟩ c1State).deliveries 1 = 0 ∧
    (sendMessageToChannel "groq" (Except.ok "Hello!") (fun _ => true)
      true 1 "hello" 42 ⟨0, [], []⟩ c1State).response =
      Except.ok
        [⟨0, 42, 1, "hello", none, none, "user", none, none, none, false⟩,
         ⟨1, 42, -1, "Hello!", none, some "groq", "ai", none, none, none, false⟩] :=
  ⟨by decide, by decide, by decide, rfl⟩

/-- C6 counterexample: in a concrete plain-text pipeline run the FIRST action
of the trace is the AI invocation (`workflow.invoke` at line 150 of
`chat_service.py`), so the user's `ChannelMessage` is NOT persisted before AI
generation is attempted, refuting the claim for the plain-text path. -/
theorem C6_text_path_ai_first_cex :
    (processChannelMessage "groq" (Except.ok "Hello!") (fun _ => true) 1 "hi" 42
      ⟨0, [], []⟩ emptyState).trace =
      [PAct.aiInvoke,
       PAct.persistRow ⟨0, 42, 1, "hi", none, none, "user", none, none, none, false⟩,
       PAct.persistRow ⟨1, 42, -1, "Hello!", none, some "groq", "ai", none, none, none, false⟩,
       PAct.broadcastRow ⟨0, 42, 1, "hi", none, none, "user", none, none, none, false⟩,
       PAct.broadcastRow ⟨1, 42, -1, "Hello!", none, some "groq", "ai", none, none, none, false⟩] := by
  decide

/-- C6 (amended): in every run of both pipelines the user row (`message_type =
user`) is persisted strictly before the AI row, and the user dictionary is
broadcast strictly before the AI dictionary; in the file-upload path the user
row is additionally persisted before the AI analysis is attempted, but in the
plain-text path the AI invocation comes first. -/
theorem C6_persist_order (p : String) (o : Except String String) (sendOk : Conn → Bool)
    (uid : Int) (msg : String) (ch : Int) (db : Db) (st : ManagerState)
    (furl fname mtext : String) :
    (∃ u a ud ad, (processChannelMessage p o sendOk uid msg ch db st).trace =
        [PAct.aiInvoke, PAct.persistRow u, PAct.persistRow a,
         PAct.broadcastRow ud, PAct.broadcastRow ad] ∧
      u.message_type = "user" ∧ u.message = msg ∧ a.message_type = "ai" ∧
      ud.message_type = "user" ∧ ad.message_type = "ai") ∧
    (∃ u a ud ad, (processFileUpload p o sendOk uid ch furl fname mtext db st).trace =
        [PAct.persistRow u, PAct.aiInvoke, PAct.persistRow a,
         PAct.broadcastRow ud, PAct.broadcastRow ad] ∧
      u.message_type = "user" ∧ u.message = mtext ∧ a.message_type = "ai" ∧
      ud.message_type = "user" ∧ ad.message_type = "ai") :=
  ⟨⟨_, _, _, _, rfl, rfl, rfl, rfl, rfl, rfl⟩,
   ⟨_, _, _, _, rfl, rfl, rfl, rfl, rfl, rfl⟩⟩

/-- C7: if the selected provider raises (`outcome = .error e`) while a member
posts a non-blank channel message, the pipeline still persists the user row,
persists an AI-typed reply whose body is the apologetic fallback carrying the
short diagnostic `str(e)` (not a surfaced error), with `provider` set to the
attempted backend name, and the HTTP caller receives a success response
containing both messages. -/
theorem C7_responder_error_fallback (p e : String) (sendOk : Conn → Bool) (uid : Int)
    (msg : String) (ch : Int) (db : Db) (st : ManagerState)
    (hp : p = "groq" ∨ p = "gemini") (hmsg : ¬ pyStrip msg = "") :
    (sendMessageToChannel p (Except.error e) sendOk true uid msg ch db st).response =
      Except.ok
        [{ id := db.nextId, channel_id := ch, user_id := uid, message := msg,
           message_type := "user" },
         { id := db.nextId + 1, channel_id := ch, user_id := -1,
           message := fallbackResponse e, provider := some p, message_type := "ai" }] ∧
    (sendMessageToChannel p (Except.error e) sendOk true uid msg ch db st).db.channel_messages =
      db.channel_messages ++
        [{ id := db.nextId, channel_id := ch, user_id := uid, message := msg,
           message_type := "user" },
         { id := db.nextId + 1, channel_id := ch, user_id := -1,
           message := fallbackResponse e, provider := some p, message_type := "ai" }] := by
  have hres : processMessageResult p (Except.error e) = fallbackResponse e := by
    rcases hp with rfl | rfl <;> rfl
  unfold sendMessageToChannel
  rw [if_neg hmsg]
  unfold processChannelMessage dbInsert
  rw [hres]
  exact ⟨rfl, by simp⟩

/-- C7 witness: a Groq rate-limit failure on the message "hello" in channel
42, starting from an empty database and no live connections. -/
theorem C7_responder_error_fallback_witness :
    (sendMessageToChannel "groq" (Except.error "rate limited") (fun _ => true)
        true 1 "hello" 42 ⟨0, [], []⟩ emptyState).response =
      Except.ok
        [{ id := 0, channel_id := 42, user_id := 1, message := "hello",
           message_type := "user" },
         { id := 1, channel_id := 42, user_id := -1,
           message := fallbackResponse "rate limited", provider := some "groq",
           message_type := "ai" }] ∧
    (sendMessageToChannel "groq" (Except.error "rate limited") (fun _ => true)
        true 1 "hello" 42 ⟨0, [], []⟩ emptyState).db.channel_messages =
      [] ++
        [{ id := 0, channel_id := 42, user_id := 1, message := "hello",
           message_type := "user" },
         { id := 1, channel_id := 42, user_id := -1,
           message := fallbackResponse "rate limited", provider := some "groq",
           message_type := "ai" }] :=
  C7_responder_error_fallback "groq" "rate limited" (fun _ => true) 1 "hello" 42
    ⟨0, [], []⟩ emptyState (Or.inl rfl) (by decide)

/-- C8 counterexample: the legacy channel-chat write path
(`POST /channels/{id}/chat` of `ai_service/router.py`, which persists through
`save_chat_message`) stores the user's text AND the AI's response on ONE
`ChannelMessage` row (`message = "hello"`, `response = some "Hi!"`,
`message_type = "ai"`), refuting "never as a single row holding both" for
"every channel-message write path". -/
theorem C8_single_row_conflation_cex :
    (chatInChannel "groq" (Except.ok "Hi!") 1 42 "hello" ⟨0, [], []⟩).2.2.channel_messages =
      [{ id := 0, channel_id := 42, user_id := 1, message := "hello",
         response := some "Hi!", provider := some "groq", message_type := "ai" }] := by
  decide

/-- C8 (amended, restricted to the `process_channel_message` and
`process_file_upload` write paths): each run appends exactly two rows — a
user row carrying only the user's content (`response = none`) and a separate
AI row (`user_id = -1`, `message_type = ai`, `response = none`, `provider`
set) — never one row holding both authors' content. -/
theorem C8_two_separate_rows (p : String) (o : Except String String)
    (sendOk : Conn → Bool) (uid : Int) (msg : String) (ch : Int) (db : Db)
    (st : ManagerState) (furl fname mtext : String) :
    (∃ u a, (processChannelMessage p o sendOk uid msg ch db st).db.channel_messages =
        db.channel_messages ++ [u, a] ∧
      u.message_type = "user" ∧ u.user_id = uid ∧ u.message = msg ∧ u.response = none ∧
      a.message_type = "ai" ∧ a.user_id = -1 ∧ a.response = none ∧ a.provider = some p) ∧
    (∃ u a, (processFileUpload p o sendOk uid ch furl fname mtext db st).db.channel_messages =
        db.channel_messages ++ [u, a] ∧
      u.message_type = "user" ∧ u.user_id = uid ∧ u.message = mtext ∧ u.response = none ∧
      a.message_type = "ai" ∧ a.user_id = -1 ∧ a.response = none ∧ a.provider = some p) := by
  constructor
  · have hdb : (processChannelMessage p o sendOk uid msg ch db st).db.channel_messages =
        db.channel_messages ++
          [{ id := db.nextId, channel_id := ch, user_id := uid, message := msg,
             message_type := "user" },
           { id := db.nextId + 1, channel_id := ch, user_id := -1,
             message := processMessageResult p o, response := none, provider := some p,
             message_type := "ai" }] := by
      simp [processChannelMessage, dbInsert]
    exact ⟨_, _, hdb, rfl, rfl, rfl, rfl, rfl, rfl, rfl, rfl⟩
  · have hdb : (processFileUpload p o sendOk uid ch furl fname mtext db st).db.channel_messages =
        db.channel_messages ++
          [{ id := db.nextId, channel_id := ch, user_id := uid, message := mtext,
             message_type := "user", file_url := some furl, file_name := some fname,
             file_type := some (if (fname.splitOn ".").length ≥ 2 then
               ((fname.splitOn ".").getLastD "").toLower else "") },
           { id := db.nextId + 1, channel_id := ch, user_id := -1,
             message :=
               (if p = "groq" ∨ p = "gemini" then
                 match o with
                 | .ok r => r
                 | .error e =>
                   "File uploaded successfully! I can see you\x27ve shared " ++ fname ++
                     ". Unfortunately, I encountered an issue analyzing it: " ++ e
               else "File uploaded successfully, but AI analysis is not available."),
             response := none, provider := some p, message_type := "ai" }] := by
      simp [processFileUpload, dbInsert]
    exact ⟨_, _, hdb, rfl, rfl, rfl, rfl, rfl, rfl, rfl, rfl⟩

/-- C9 (evaluation at the failing input): `GroqProvider.generate_response`
retries a transient API error up to the 3-attempt cap and fails immediately
(1 attempt) on the missing-key `ValueError`, as the claim states; but
`GeminiProvider.generate_response` wraps EVERY exception — transient network
errors included — into `ValueError("Gemini API error: ...")` inside the
method body, so its own `retry_if_not_exception_type(ValueError)` decorator
never retries: a transient error makes exactly ONE attempt, contradicting the
claim (and the decorator's configuration).  The declared backoff
`wait_exponential(multiplier=1, min=4, max=10)` starts at 4 s and is capped at
10 s. -/
theorem C9_retry_policy_eval :
    groqGenerateResponse true (fun _ => Except.error (.apiError "connection timed out")) =
      (3, Except.error (.apiError "connection timed out")) ∧
    groqGenerateResponse false (fun _ => Except.ok "hello") =
      (1, Except.error (.valueError "Groq API key not configured")) ∧
    geminiGenerateResponse false (fun _ => Except.ok "hello") =
      (1, Except.error (.valueError "Gemini API key not configured")) ∧
    geminiGenerateResponse true (fun _ => Except.error (.apiError "connection timed out")) =
      (1, Except.error (.valueError "Gemini API error: connection timed out")) ∧
    waitExp 1 4 10 1 = 4 ∧ waitExp 1 4 10 2 = 4 ∧ waitExp 1 4 10 3 = 8 ∧
    waitExp 1 4 10 10 = 10 :=
  ⟨rfl, rfl, rfl, rfl, rfl, rfl, rfl, rfl⟩

end AIBot
